import Mathlib

/-!
Verification development for the idea-factory-manager task orchestration
engine. The definitions below are a shallow embedding of
`scripts/agent-runner.ts` (the feature-branch / pull-request / preview
version, namely the functions `updateTaskStatus`, `runAgent`,
`runGitCommand`, `commitAndPush`, `createPullRequest`,
`waitForPreviewDeployment`, `processTask`) and of
`scripts/review-workflow.ts` (`mergeToMain`, `deployToProduction`,
`cleanupPreviewDeployment`, `processApprovedTask`), together with the
`agent_tasks` row shape from `db/schema.ts`.

Modelling conventions:
- Every external effect (subprocess, HTTP call, database write) is driven
  by an environment record holding the outcome the outside world would
  produce, and is recorded in an event trace (`Event`).
- JavaScript string truthiness tests (`if (x)` on a possibly-undefined
  string) are modelled by `optTruthy`: an `Option String` is truthy when
  it is `some` of a nonempty string.
- The drizzle `update().set()` call skips keys whose value is
  `undefined`; a `TaskUpdate` therefore carries `Option` fields where
  `none` means "key absent, keep the stored value" (`mergeField`).
- Timestamp columns (`startedAt`, `completedAt`, `createdAt`,
  `updatedAt`) are not modelled: no claim mentions them.
- The bounded preview-deployment polling loop is modelled by a finite
  list of poll responses (one entry per poll tick inside the wait
  window); `none` is a failed fetch, `some previews` a successful one.
-/

namespace IFM

/-- Task status enum from `db/schema.ts` (`taskStatusEnum`). -/
inductive TaskStatus where
  | pending
  | running
  | completed
  | failed
  | cancelled
  | review
deriving DecidableEq, Repr

/-- Row shape of the `agent_tasks` table (`db/schema.ts`), restricted to
the columns the claims are about; timestamp columns are omitted. -/
structure AgentTask where
  id : String
  title : String
  prompt : String
  projectPath : String
  status : TaskStatus
  model : Option String
  output : Option String
  error : Option String
  branchName : Option String
  commitHash : Option String
  prUrl : Option String
  prNumber : Option Nat
  previewUrl : Option String
  previewDeploymentId : Option String
deriving DecidableEq, Repr

/-- Argument of one `updateTaskStatus(id, status, extra)` call: the new
status plus the optional `extra` keys. A `none` field models a key that
is absent or `undefined`, which drizzle skips, leaving the stored value. -/
structure TaskUpdate where
  status : TaskStatus
  output : Option String := none
  error : Option String := none
  branchName : Option String := none
  commitHash : Option String := none
  prUrl : Option String := none
  prNumber : Option Nat := none
  previewUrl : Option String := none
  previewDeploymentId : Option String := none
deriving DecidableEq, Repr

/-- Drizzle `set` semantics for one column: a provided value overwrites,
an absent (`undefined`) one keeps the old stored value. -/
def mergeField {α : Type} (new old : Option α) : Option α :=
  match new with
  | some v => some v
  | none => old

/-- Effect of one `updateTaskStatus` call on the stored row
(`agent-runner.ts`, `updateTaskStatus`). -/
def applyUpdate (t : AgentTask) (u : TaskUpdate) : AgentTask :=
  { t with
    status := u.status
    output := mergeField u.output t.output
    error := mergeField u.error t.error
    branchName := mergeField u.branchName t.branchName
    commitHash := mergeField u.commitHash t.commitHash
    prUrl := mergeField u.prUrl t.prUrl
    prNumber := mergeField u.prNumber t.prNumber
    previewUrl := mergeField u.previewUrl t.previewUrl
    previewDeploymentId := mergeField u.previewDeploymentId t.previewDeploymentId }

/-- Stored row after a sequence of updates. -/
def applyUpdates (t : AgentTask) (us : List TaskUpdate) : AgentTask :=
  us.foldl applyUpdate t

/-- Intermediate stored rows observed after each successive update. -/
def statesAfter : AgentTask → List TaskUpdate → List AgentTask
  | _, [] => []
  | t, u :: us =>
    let t1 := applyUpdate t u
    t1 :: statesAfter t1 us

/-- Freshly created task: the task-creation surface inserts a row in
status `pending` with every nullable column null (`db/schema.ts`
defaults). -/
def mkPendingTask (id title prompt projectPath : String)
    (model : Option String) : AgentTask :=
  { id := id
    title := title
    prompt := prompt
    projectPath := projectPath
    status := TaskStatus.pending
    model := model
    output := none
    error := none
    branchName := none
    commitHash := none
    prUrl := none
    prNumber := none
    previewUrl := none
    previewDeploymentId := none }

@[simp]
theorem mkPendingTask_id (i t p pa : String) (m : Option String) :
    (mkPendingTask i t p pa m).id = i := rfl

@[simp]
theorem mkPendingTask_projectPath (i t p pa : String) (m : Option String) :
    (mkPendingTask i t p pa m).projectPath = pa := rfl

@[simp]
theorem mkPendingTask_status (i t p pa : String) (m : Option String) :
    (mkPendingTask i t p pa m).status = TaskStatus.pending := rfl

@[simp]
theorem mkPendingTask_output (i t p pa : String) (m : Option String) :
    (mkPendingTask i t p pa m).output = none := rfl

@[simp]
theorem mkPendingTask_error (i t p pa : String) (m : Option String) :
    (mkPendingTask i t p pa m).error = none := rfl

@[simp]
theorem mkPendingTask_branchName (i t p pa : String) (m : Option String) :
    (mkPendingTask i t p pa m).branchName = none := rfl

@[simp]
theorem mkPendingTask_commitHash (i t p pa : String) (m : Option String) :
    (mkPendingTask i t p pa m).commitHash = none := rfl

@[simp]
theorem mkPendingTask_prUrl (i t p pa : String) (m : Option String) :
    (mkPendingTask i t p pa m).prUrl = none := rfl

@[simp]
theorem mkPendingTask_prNumber (i t p pa : String) (m : Option String) :
    (mkPendingTask i t p pa m).prNumber = none := rfl

@[simp]
theorem mkPendingTask_previewUrl (i t p pa : String) (m : Option String) :
    (mkPendingTask i t p pa m).previewUrl = none := rfl

@[simp]
theorem mkPendingTask_previewDeploymentId (i t p pa : String) (m : Option String) :
    (mkPendingTask i t p pa m).previewDeploymentId = none := rfl

/-- JavaScript truthiness of a possibly-undefined string field:
`undefined` and the empty string are falsy. -/
def optTruthy : Option String → Bool
  | some s => !s.isEmpty
  | none => false

/-- Result of `runGitCommand`: success is exit code zero, output is the
accumulated stdout plus stderr text. -/
structure CmdResult where
  success : Bool
  output : String
deriving DecidableEq, Repr

/-- Outcome of spawning an external process: either it ran to completion
with an exit code and captured stdout/stderr, or the launch itself
failed (binary not found, permission denied) with an error message and
whatever stdout was captured before the failure. -/
inductive ProcOutcome where
  | closed (code : Int) (stdout stderr : String)
  | launchError (msg : String) (stdout : String)
deriving DecidableEq, Repr

/-- Result shape of `runAgent`. -/
structure AgentResult where
  success : Bool
  output : String
  error : Option String
deriving DecidableEq, Repr

/-- Embedding of `runAgent` (`agent-runner.ts`): exit code zero resolves
success with the captured stdout; a non-zero exit resolves failure with
stderr as the error, falling back to an exit-code string when stderr is
empty; a launch error resolves failure with the error message. -/
def runAgent (o : ProcOutcome) : AgentResult :=
  match o with
  | ProcOutcome.closed code out err =>
    if code == 0 then
      { success := true, output := out, error := none }
    else
      { success := false, output := out,
        error := some (if err.isEmpty then "Exit code: " ++ toString code else err) }
  | ProcOutcome.launchError msg out =>
    { success := false, output := out, error := some msg }

/-- Character class `[a-z0-9]` of the slug regex. -/
def isSlugChar (c : Char) : Bool :=
  (Char.ofNat 97 ≤ c && c ≤ Char.ofNat 122) || (Char.ofNat 48 ≤ c && c ≤ Char.ofNat 57)

/-- The `toLowerCase()` call on the title, modelled characterwise. -/
def jsLower (s : String) : String :=
  String.mk (s.toList.map Char.toLower)

/-- The JavaScript `trim()` call: leading and trailing whitespace
removed, modelled over the character list. -/
def jsTrim (s : String) : String :=
  String.mk (((s.toList.dropWhile Char.isWhitespace).reverse.dropWhile
    Char.isWhitespace).reverse)

/-- Streaming embedding of the replace call collapsing runs outside
`[a-z0-9]` to a single dash: the flag
records whether the scanner is inside a run of excluded characters that
has already emitted its single replacement dash. -/
def replaceRunsAux : List Char → Bool → List Char
  | [], _ => []
  | c :: cs, inRun =>
    if isSlugChar c then c :: replaceRunsAux cs false
    else if inRun then replaceRunsAux cs true
    else Char.ofNat 45 :: replaceRunsAux cs true

/-- Embedding of the slug computation in `commitAndPush`:
lower-case the title, collapse each maximal run outside `[a-z0-9]` to a
single dash, keep the first 30 characters. -/
def slugify (title : String) : String :=
  (String.mk (replaceRunsAux (jsLower title).toList false)).take 30

/-- Helper bound for the termination of `collapseRuns`. -/
theorem dropWhile_length_le (p : Char → Bool) (l : List Char) :
    (l.dropWhile p).length ≤ l.length := by
  induction l with
  | nil => simp [List.dropWhile]
  | cons c cs ih =>
    by_cases h : p c
    · simp only [List.dropWhile, h, List.length_cons]
      omega
    · simp [List.dropWhile, h]

/-- Written from the claim wording: the title lower-cased, every
maximal run of non-alphanumeric characters (outside `[a-z0-9]`)
replaced by a single dash, then truncated to 30 characters. Stated as a
second definition to be compared with `slugify`. -/
def collapseRuns : List Char → List Char
  | [] => []
  | c :: cs =>
    if isSlugChar c then c :: collapseRuns cs
    else Char.ofNat 45 :: collapseRuns (cs.dropWhile (fun d => !isSlugChar d))
termination_by l => l.length
decreasing_by
  · simp_wf
  · have h := dropWhile_length_le (fun d => !isSlugChar d) cs
    simp_wf
    omega

/-- Slug as described by the specification sentence. -/
def slugSpec (title : String) : String :=
  (String.mk (collapseRuns (jsLower title).toList)).take 30

/-- Feature branch name derived in `commitAndPush`:
`agent/<first 8 chars of id>-<slug>`. -/
def featureBranchOf (task : AgentTask) : String :=
  "agent/" ++ task.id.take 8 ++ "-" ++ slugify task.title

/-- Commit message built in `commitAndPush`. -/
def commitMessageOf (task : AgentTask) : String :=
  "feat: " ++ task.title ++ "\n\nTask ID: " ++ task.id ++ "\nAutomated commit by agent-runner"

/-- Digits read by `parseInt` after the `/pull/` segment. -/
def takeDigits (cs : List Char) : List Char :=
  cs.takeWhile Char.isDigit

/-- Decimal value of a digit run. -/
def digitsToNat (ds : List Char) : Nat :=
  ds.foldl (fun n c => n * 10 + (c.toNat - 48)) 0

/-- Embedding of `prUrl.match(/\/pull\/(\d+)/)` followed by `parseInt`:
the leftmost position where the text `/pull/` is immediately followed by
at least one digit yields the value of that digit run. -/
def findPullNumber : List Char → Option Nat
  | [] => none
  | c :: rest =>
    if (c :: rest).take 6 == "/pull/".toList then
      let ds := takeDigits ((c :: rest).drop 6)
      if ds.isEmpty then findPullNumber rest else some (digitsToNat ds)
    else findPullNumber rest

/-- Result shape of `createPullRequest`. -/
structure PrResult where
  success : Bool
  prUrl : Option String := none
  prNumber : Option Nat := none
  error : Option String := none
deriving DecidableEq, Repr

/-- Embedding of `createPullRequest` (`agent-runner.ts`): on exit code
zero the trimmed stdout is the PR URL and the PR number is parsed from
its `/pull/<n>` segment; on a non-zero exit the error is stderr, falling
back to stdout, falling back to an exit-code string; a launch error
yields the launch message. -/
def createPullRequest (o : ProcOutcome) : PrResult :=
  match o with
  | ProcOutcome.closed code out err =>
    if code == 0 then
      let prUrl := jsTrim out
      { success := true, prUrl := some prUrl, prNumber := findPullNumber prUrl.toList }
    else
      { success := false,
        error := some (if !err.isEmpty then err
                       else if !out.isEmpty then out
                       else "Exit code: " ++ toString code) }
  | ProcOutcome.launchError msg _ =>
    { success := false, error := some msg }

/-- Observable external effects of the two scripts. -/
inductive Event where
  | gitCmd (args : List String)
  | ghPrCreate
  | previewListFetch
  | deployTrigger (appId : String)
  | previewDelete (deploymentId : String)
  | dbUpdate (taskId : String) (u : TaskUpdate)
deriving DecidableEq, Repr

/-- Outcomes the environment supplies for each git command and the
`gh pr create` process inside one `commitAndPush` run. The command for a
given field is fixed by where `commitAndPush` uses it. -/
structure GitEnv where
  statusRes : CmdResult
  headBranchRes : CmdResult
  checkoutFeatureRes : CmdResult
  addRes : CmdResult
  commitRes : CmdResult
  headHashRes : CmdResult
  pushRes : CmdResult
  prProc : ProcOutcome
  checkoutBackRes : CmdResult
deriving DecidableEq, Repr

/-- Result shape of `commitAndPush`. -/
structure GitPushResult where
  success : Bool
  branchName : Option String := none
  commitHash : Option String := none
  prUrl : Option String := none
  prNumber : Option Nat := none
  error : Option String := none
deriving DecidableEq, Repr

/-- Return of the `commitAndPush` embedding: the result record, the
trace of external effects in execution order, and the branch the
working tree is left on. The working-tree branch starts at the base
branch reported by `rev-parse --abbrev-ref HEAD` (the model takes that
report as truthful), moves to the feature branch when `checkout -b`
succeeds, and moves back when the rollback `checkout <base>` succeeds. -/
structure CommitPushOut where
  result : GitPushResult
  events : List Event
  finalBranch : String
deriving DecidableEq, Repr

/-- Embedding of `commitAndPush` (`agent-runner.ts`). Mirrors the source
step by step: porcelain status check (empty output short-circuits to a
bare success), base branch lookup, feature branch checkout, stage,
commit, short hash, push with upstream, PR creation, and the final
checkout back to the base branch; every failure after the feature
checkout first checks out the base branch again. -/
def commitAndPush (task : AgentTask) (env : GitEnv) : CommitPushOut :=
  let base := jsTrim env.headBranchRes.output
  let evStatus := Event.gitCmd ["status", "--porcelain"]
  if (jsTrim env.statusRes.output).isEmpty then
    { result := { success := true }, events := [evStatus], finalBranch := base }
  else
    let evHead := Event.gitCmd ["rev-parse", "--abbrev-ref", "HEAD"]
    let featureBranch := featureBranchOf task
    let evCheckout := Event.gitCmd ["checkout", "-b", featureBranch]
    if !env.checkoutFeatureRes.success then
      { result := { success := false,
                    error := some ("Failed to create branch: " ++ env.checkoutFeatureRes.output) }
        events := [evStatus, evHead, evCheckout]
        finalBranch := base }
    else
      let evAdd := Event.gitCmd ["add", "-A"]
      let evBack := Event.gitCmd ["checkout", base]
      let rolledBack := if env.checkoutBackRes.success then base else featureBranch
      if !env.addRes.success then
        { result := { success := false,
                      error := some ("Failed to stage changes: " ++ env.addRes.output) }
          events := [evStatus, evHead, evCheckout, evAdd, evBack]
          finalBranch := rolledBack }
      else
        let evCommit := Event.gitCmd ["commit", "-m", commitMessageOf task]
        if !env.commitRes.success then
          { result := { success := false,
                        error := some ("Failed to commit: " ++ env.commitRes.output) }
            events := [evStatus, evHead, evCheckout, evAdd, evCommit, evBack]
            finalBranch := rolledBack }
        else
          let evHash := Event.gitCmd ["rev-parse", "HEAD"]
          let commitHash := (jsTrim env.headHashRes.output).take 7
          let evPush := Event.gitCmd ["push", "-u", "origin", featureBranch]
          if !env.pushRes.success then
            { result := { success := false
                          branchName := some featureBranch
                          commitHash := some commitHash
                          error := some ("Failed to push: " ++ env.pushRes.output) }
              events := [evStatus, evHead, evCheckout, evAdd, evCommit, evHash, evPush, evBack]
              finalBranch := rolledBack }
          else
            let pr := createPullRequest env.prProc
            let allEvents := [evStatus, evHead, evCheckout, evAdd, evCommit, evHash, evPush,
                              Event.ghPrCreate, evBack]
            if !pr.success then
              { result := { success := true
                            branchName := some featureBranch
                            commitHash := some commitHash
                            error := some ("Branch pushed but PR creation failed: "
                                           ++ pr.error.getD "") }
                events := allEvents
                finalBranch := rolledBack }
            else
              { result := { success := true
                            branchName := some featureBranch
                            commitHash := some commitHash
                            prUrl := pr.prUrl
                            prNumber := pr.prNumber }
                events := allEvents
                finalBranch := rolledBack }

/-- Static `PROJECT_APP_IDS` map shared by both scripts. -/
def PROJECT_APP_IDS (path : String) : Option String :=
  if path == "/home/zzula/projects/idea-factory-manager" then some "VmkFm8AScDwiiX0KNyNKL"
  else if path == "/home/zzula/projects/idea-factory-template" then some "HAZQTYfaNCUmsMVi4lBDu"
  else none

/-- One entry of the preview deployment list returned by the Dokploy
`previewDeployment.all` endpoint, as the runner reads it. -/
structure PreviewEntry where
  branch : String
  previewDeploymentId : String
  domain : Option String
deriving DecidableEq, Repr

/-- Result shape of `waitForPreviewDeployment`. -/
structure PreviewResult where
  success : Bool
  previewUrl : Option String := none
  deploymentId : Option String := none
deriving DecidableEq, Repr

/-- Return of the preview-wait embedding: the result plus the trace of
fetches performed. -/
structure PreviewOut where
  result : PreviewResult
  events : List Event
deriving DecidableEq, Repr

/-- Preview URL picked for a found entry:
`preview.domain || dollar-template "Preview for <branchName>"`, where the
JavaScript or-operator also rejects an empty string. -/
def previewUrlOf (branchName : String) (e : PreviewEntry) : String :=
  match e.domain with
  | some d => if d.isEmpty then "Preview for " ++ branchName else d
  | none => "Preview for " ++ branchName

/-- Polling loop body of `waitForPreviewDeployment`: each tick fetches
the preview list (a failed fetch is skipped), looks for an entry whose
branch equals the pushed branch, and returns on the first hit; an
exhausted window is still a success with no preview. -/
def pollLoop (branchName : String) : List (Option (List PreviewEntry)) → PreviewOut
  | [] => { result := { success := true }, events := [] }
  | poll :: rest =>
    match poll with
    | none =>
      let o := pollLoop branchName rest
      { o with events := Event.previewListFetch :: o.events }
    | some previews =>
      match previews.find? (fun p => p.branch == branchName) with
      | some e =>
        { result := { success := true
                      previewUrl := some (previewUrlOf branchName e)
                      deploymentId := some e.previewDeploymentId }
          events := [Event.previewListFetch] }
      | none =>
        let o := pollLoop branchName rest
        { o with events := Event.previewListFetch :: o.events }

/-- Entry the polling loop would return: first match over the successive
successful fetches. -/
def pollFind (branchName : String) : List (Option (List PreviewEntry)) → Option PreviewEntry
  | [] => none
  | none :: rest => pollFind branchName rest
  | some previews :: rest =>
    match previews.find? (fun p => p.branch == branchName) with
    | some e => some e
    | none => pollFind branchName rest

/-- Embedding of `waitForPreviewDeployment` (`agent-runner.ts`): an
unmapped project path or an empty API key skips the check as a success;
otherwise the bounded polling loop runs. -/
def waitForPreviewDeployment (projectPath branchName : String) (apiKey : String)
    (polls : List (Option (List PreviewEntry))) : PreviewOut :=
  match PROJECT_APP_IDS projectPath with
  | none => { result := { success := true }, events := [] }
  | some _ =>
    if apiKey.isEmpty then { result := { success := true }, events := [] }
    else pollLoop branchName polls

/-- External outcomes for one `processTask` run. -/
structure RunnerEnv where
  agentProc : ProcOutcome
  git : GitEnv
  dokployApiKey : String
  previewPolls : List (Option (List PreviewEntry))
deriving DecidableEq, Repr

/-- Embedding of `processTask` (`agent-runner.ts`), as the trace of
external effects it performs: the initial `running` update, the agent
run, then either the review pipeline (commit/push, preview wait, one
`review` update), the no-op `completed` update, the git-failure `failed`
update, or the agent-failure `failed` update. -/
def processTask (task : AgentTask) (env : RunnerEnv) : List Event :=
  let evRunning := Event.dbUpdate task.id { status := TaskStatus.running }
  let result := runAgent env.agentProc
  if result.success then
    let g := commitAndPush task env.git
    if g.result.success && optTruthy g.result.commitHash then
      let branchName := g.result.branchName.getD ""
      let p := waitForPreviewDeployment task.projectPath branchName env.dokployApiKey
                 env.previewPolls
      evRunning :: g.events ++ p.events ++
        [Event.dbUpdate task.id
          { status := TaskStatus.review
            output := some result.output
            branchName := g.result.branchName
            commitHash := g.result.commitHash
            prUrl := g.result.prUrl
            prNumber := g.result.prNumber
            previewUrl := p.result.previewUrl
            previewDeploymentId := p.result.deploymentId }]
    else if g.result.success then
      evRunning :: g.events ++
        [Event.dbUpdate task.id
          { status := TaskStatus.completed, output := some result.output }]
    else
      evRunning :: g.events ++
        [Event.dbUpdate task.id
          { status := TaskStatus.failed
            output := some result.output
            error := g.result.error
            branchName := g.result.branchName
            commitHash := g.result.commitHash }]
  else
    [evRunning,
     Event.dbUpdate task.id
       { status := TaskStatus.failed
         output := some result.output
         error := result.error }]

/-- Database updates contained in an effect trace, in order. -/
def updatesOf (evs : List Event) : List TaskUpdate :=
  evs.filterMap fun e =>
    match e with
    | Event.dbUpdate _ u => some u
    | _ => none

/-- Stored row after all the updates of an effect trace. -/
def finalState (t : AgentTask) (evs : List Event) : AgentTask :=
  applyUpdates t (updatesOf evs)

/-- Stored row a fresh pending task ends in after one `processTask` run. -/
def finalOf (id title prompt path : String) (model : Option String)
    (env : RunnerEnv) : AgentTask :=
  finalState (mkPendingTask id title prompt path model)
    (processTask (mkPendingTask id title prompt path model) env)

/-- Generic success/error result of a review-workflow step. -/
structure StepResult where
  success : Bool
  error : Option String := none
deriving DecidableEq, Repr

/-- Outcomes for the git commands of one `mergeToMain` run. -/
structure MergeEnv where
  checkoutMainRes : CmdResult
  pullRes : CmdResult
  mergeRes : CmdResult
  pushMainRes : CmdResult
  deleteLocalRes : CmdResult
  deleteRemoteRes : CmdResult
deriving DecidableEq, Repr

/-- Return of the `mergeToMain` embedding. -/
structure MergeOut where
  result : StepResult
  events : List Event
deriving DecidableEq, Repr

/-- Embedding of `mergeToMain` (`review-workflow.ts`): guard on the
branch name and commit hash being truthy, checkout main, pull, merge
non-fast-forward, push, then delete the feature branch locally and
upstream with unchecked results. -/
def mergeToMain (task : AgentTask) (env : MergeEnv) : MergeOut :=
  if !(optTruthy task.branchName && optTruthy task.commitHash) then
    { result := { success := false, error := some "No branch or commit hash available" }
      events := [] }
  else
    let branch := task.branchName.getD ""
    let ev1 := Event.gitCmd ["checkout", "main"]
    if !env.checkoutMainRes.success then
      { result := { success := false,
                    error := some ("Failed to checkout main: " ++ env.checkoutMainRes.output) }
        events := [ev1] }
    else
      let ev2 := Event.gitCmd ["pull", "origin", "main"]
      if !env.pullRes.success then
        { result := { success := false,
                      error := some ("Failed to pull main: " ++ env.pullRes.output) }
          events := [ev1, ev2] }
      else
        let ev3 := Event.gitCmd ["merge", branch, "--no-ff", "-m",
                                 "Merge: " ++ task.title ++ " (#" ++ task.id ++ ")"]
        if !env.mergeRes.success then
          { result := { success := false,
                        error := some ("Failed to merge: " ++ env.mergeRes.output) }
            events := [ev1, ev2, ev3] }
        else
          let ev4 := Event.gitCmd ["push", "origin", "main"]
          if !env.pushMainRes.success then
            { result := { success := false,
                          error := some ("Failed to push main: " ++ env.pushMainRes.output) }
              events := [ev1, ev2, ev3, ev4] }
          else
            let ev5 := Event.gitCmd ["branch", "-d", branch]
            let ev6 := Event.gitCmd ["push", "origin", "--delete", branch]
            { result := { success := true }, events := [ev1, ev2, ev3, ev4, ev5, ev6] }

/-- Embedding of `deployToProduction` (`review-workflow.ts`): an
unmapped project or empty API key is a silent success with no request;
otherwise a deploy request is issued and its HTTP outcome decides the
result (HTTP-status failures and thrown fetch errors are merged, since
no claim distinguishes them). -/
def deployToProduction (projectPath apiKey : String) (httpOk : Bool)
    (failText : String) : MergeOut :=
  match PROJECT_APP_IDS projectPath with
  | none => { result := { success := true }, events := [] }
  | some appId =>
    if apiKey.isEmpty then { result := { success := true }, events := [] }
    else if httpOk then
      { result := { success := true }, events := [Event.deployTrigger appId] }
    else
      { result := { success := false, error := some ("Deploy failed: " ++ failText) }
        events := [Event.deployTrigger appId] }

/-- Embedding of `cleanupPreviewDeployment` (`review-workflow.ts`). -/
def cleanupPreviewDeployment (deploymentId apiKey : String) (httpOk : Bool)
    (failText : String) : MergeOut :=
  if apiKey.isEmpty then { result := { success := true }, events := [] }
  else if httpOk then
    { result := { success := true }, events := [Event.previewDelete deploymentId] }
  else
    { result := { success := false, error := some ("Cleanup failed: " ++ failText) }
      events := [Event.previewDelete deploymentId] }

/-- External outcomes for one `processApprovedTask` run. -/
structure ResolverEnv where
  merge : MergeEnv
  dokployApiKey : String
  deployOk : Bool
  deployFailText : String
  cleanupOk : Bool
  cleanupFailText : String
deriving DecidableEq, Repr

/-- Embedding of `processApprovedTask` (`review-workflow.ts`), as its
trace of external effects: merge to main (a failure returns after
logging), production deploy (a failure returns after logging), then
preview cleanup when a truthy preview deployment id is stored. The
function performs no database update in any branch. -/
def processApprovedTask (task : AgentTask) (env : ResolverEnv) : List Event :=
  let m := mergeToMain task env.merge
  if !m.result.success then m.events
  else
    let d := deployToProduction task.projectPath env.dokployApiKey env.deployOk
               env.deployFailText
    if !d.result.success then m.events ++ d.events
    else
      let c :=
        if optTruthy task.previewDeploymentId then
          (cleanupPreviewDeployment (task.previewDeploymentId.getD "") env.dokployApiKey
            env.cleanupOk env.cleanupFailText).events
        else []
      m.events ++ d.events ++ c

/-- Review-resolver effects the approve path must not perform after a
merge failure: deployment triggers, preview deletions, task updates. -/
def isResolverSideEffect : Event → Bool
  | Event.deployTrigger _ => true
  | Event.previewDelete _ => true
  | Event.dbUpdate _ _ => true
  | _ => false

/-- Equation of `collapseRuns` on the empty list. -/
theorem collapseRuns_nil : collapseRuns [] = [] := by
  rw [collapseRuns.eq_def]

/-- Equation of `collapseRuns` on a kept character. -/
theorem collapseRuns_cons_pos (c : Char) (cs : List Char) (h : isSlugChar c = true) :
    collapseRuns (c :: cs) = c :: collapseRuns cs := by
  rw [collapseRuns.eq_def]
  simp [h]

/-- Equation of `collapseRuns` on an excluded character. -/
theorem collapseRuns_cons_neg (c : Char) (cs : List Char) (h : isSlugChar c = false) :
    collapseRuns (c :: cs)
      = Char.ofNat 45 :: collapseRuns (cs.dropWhile (fun d => !isSlugChar d)) := by
  rw [collapseRuns.eq_def]
  simp [h]

/-- The streaming replace agrees with the run-collapsing description, in
both scanner states. -/
theorem replaceRunsAux_spec (cs : List Char) :
    replaceRunsAux cs false = collapseRuns cs ∧
    replaceRunsAux cs true = collapseRuns (cs.dropWhile (fun d => !isSlugChar d)) := by
  induction cs with
  | nil => simp [replaceRunsAux, collapseRuns_nil]
  | cons c cs ih =>
    by_cases h : isSlugChar c
    · constructor
      · simp [replaceRunsAux, collapseRuns_cons_pos c cs h, h, ih.1]
      · simp [replaceRunsAux, List.dropWhile, h, collapseRuns_cons_pos c cs h, ih.1]
    · have h0 : isSlugChar c = false := by simpa using h
      constructor
      · simp [replaceRunsAux, collapseRuns_cons_neg c cs h0, h0, ih.2]
      · simp only [List.dropWhile, h0, Bool.not_false]
        simp [replaceRunsAux, collapseRuns_cons_neg c cs h0, h0, ih.2]

/-- The slug computed by `commitAndPush` is exactly the slug the
specification sentence describes. -/
theorem slugify_eq_slugSpec (title : String) : slugify title = slugSpec title := by
  unfold slugify slugSpec
  rw [(replaceRunsAux_spec (jsLower title).toList).1]

@[simp]
theorem updatesOf_nil : updatesOf [] = [] := rfl

@[simp]
theorem updatesOf_cons_dbUpdate (i : String) (u : TaskUpdate) (evs : List Event) :
    updatesOf (Event.dbUpdate i u :: evs) = u :: updatesOf evs := rfl

@[simp]
theorem updatesOf_cons_gitCmd (a : List String) (evs : List Event) :
    updatesOf (Event.gitCmd a :: evs) = updatesOf evs := rfl

@[simp]
theorem updatesOf_cons_ghPrCreate (evs : List Event) :
    updatesOf (Event.ghPrCreate :: evs) = updatesOf evs := rfl

@[simp]
theorem updatesOf_cons_previewListFetch (evs : List Event) :
    updatesOf (Event.previewListFetch :: evs) = updatesOf evs := rfl

@[simp]
theorem updatesOf_append (a b : List Event) :
    updatesOf (a ++ b) = updatesOf a ++ updatesOf b := by
  simp [updatesOf]

@[simp]
theorem applyUpdates_nil (t : AgentTask) : applyUpdates t [] = t := rfl

@[simp]
theorem applyUpdates_cons (t : AgentTask) (u : TaskUpdate) (us : List TaskUpdate) :
    applyUpdates t (u :: us) = applyUpdates (applyUpdate t u) us := rfl

set_option maxHeartbeats 1600000 in
/-- The commit-and-push pipeline performs no database update itself. -/
@[simp]
theorem commitAndPush_no_updates (task : AgentTask) (env : GitEnv) :
    updatesOf (commitAndPush task env).events = [] := by
  cases hpr : (createPullRequest env.prProc).success with
  | false =>
    unfold commitAndPush
    split_ifs <;>
      simp only [hpr, Bool.not_false, Bool.not_true, Bool.false_eq_true, if_true, if_false,
        updatesOf_cons_gitCmd, updatesOf_cons_ghPrCreate, updatesOf_nil]
  | true =>
    unfold commitAndPush
    split_ifs <;>
      simp only [hpr, Bool.not_false, Bool.not_true, Bool.false_eq_true, if_true, if_false,
        updatesOf_cons_gitCmd, updatesOf_cons_ghPrCreate, updatesOf_nil]

/-- The preview polling loop performs no database update. -/
@[simp]
theorem pollLoop_no_updates (b : String) (polls : List (Option (List PreviewEntry))) :
    updatesOf (pollLoop b polls).events = [] := by
  induction polls with
  | nil => simp [pollLoop]
  | cons p rest ih =>
    cases p with
    | none => simpa [pollLoop] using ih
    | some previews =>
      cases h : previews.find? (fun q => q.branch == b) with
      | none => simpa [pollLoop, h] using ih
      | some e => simp [pollLoop, h]

/-- The preview wait performs no database update. -/
@[simp]
theorem waitForPreview_no_updates (pp b key : String)
    (polls : List (Option (List PreviewEntry))) :
    updatesOf (waitForPreviewDeployment pp b key polls).events = [] := by
  unfold waitForPreviewDeployment
  split
  · simp
  · split
    · simp
    · exact pollLoop_no_updates b polls

/-- The polling loop returns exactly the entry `pollFind` locates. -/
theorem pollLoop_result (b : String) (polls : List (Option (List PreviewEntry))) :
    (pollLoop b polls).result =
      (match pollFind b polls with
       | some e =>
         { success := true
           previewUrl := some (previewUrlOf b e)
           deploymentId := some e.previewDeploymentId }
       | none => { success := true }) := by
  induction polls with
  | nil => simp [pollLoop, pollFind]
  | cons p rest ih =>
    cases p with
    | none => simpa [pollLoop, pollFind] using ih
    | some previews =>
      cases h : previews.find? (fun q => q.branch == b) with
      | none => simpa [pollLoop, pollFind, h] using ih
      | some e => simp [pollLoop, pollFind, h]

set_option maxHeartbeats 1600000 in
/-- When `commitAndPush` succeeds with a truthy commit hash, it also
reports the feature branch name. -/
theorem commitAndPush_branchName_some (task : AgentTask) (env : GitEnv)
    (hS : (commitAndPush task env).result.success = true)
    (hH : optTruthy (commitAndPush task env).result.commitHash = true) :
    (commitAndPush task env).result.branchName = some (featureBranchOf task) := by
  revert hS hH
  cases hpr : (createPullRequest env.prProc).success with
  | false =>
    unfold commitAndPush
    split_ifs <;>
      simp only [hpr, optTruthy, Bool.not_false, Bool.not_true, Bool.false_eq_true, if_true,
        if_false, Bool.not_eq_true, imp_self, implies_true, false_implies, forall_const,
        String.isEmpty]
  | true =>
    unfold commitAndPush
    split_ifs <;>
      simp only [hpr, optTruthy, Bool.not_false, Bool.not_true, Bool.false_eq_true, if_true,
        if_false, Bool.not_eq_true, imp_self, implies_true, false_implies, forall_const,
        String.isEmpty]

/-- The merge step emits only git commands. -/
theorem mergeToMain_git_only (task : AgentTask) (env : MergeEnv) :
    ((mergeToMain task env).events.all fun e => !isResolverSideEffect e) = true := by
  unfold mergeToMain
  split_ifs <;> simp [isResolverSideEffect]

/-- Successful git command with empty output, for concrete scenarios. -/
def okCmd : CmdResult :=
  { success := true, output := "" }

/-- Git environment in which every step succeeds and the PR is created. -/
def gitEnvOk : GitEnv :=
  { statusRes := { success := true, output := " M src/app.ts\n" }
    headBranchRes := { success := true, output := "main\n" }
    checkoutFeatureRes := okCmd
    addRes := okCmd
    commitRes := okCmd
    headHashRes := { success := true, output := "abcdef1234567\n" }
    pushRes := okCmd
    prProc := ProcOutcome.closed 0 "https://github.com/z/r/pull/12\n" ""
    checkoutBackRes := okCmd }

/-- Fresh pending task used in the fully successful scenario; its
feature branch is `agent/11112222-add-feature`. -/
def taskA : AgentTask :=
  mkPendingTask "11112222-3333" "Add Feature" "do the thing"
    "/home/zzula/projects/idea-factory-manager" none

/-- Fully successful runner environment: agent exits zero, all git steps
succeed, the PR is created, and a preview for the pushed branch shows up
on the first poll. -/
def runnerEnvOk : RunnerEnv :=
  { agentProc := ProcOutcome.closed 0 "agent output" ""
    git := gitEnvOk
    dokployApiKey := "key"
    previewPolls :=
      [some [{ branch := "agent/11112222-add-feature"
               previewDeploymentId := "pd1"
               domain := some "https://pv.example.com" }]] }

/-- Fresh pending task for the PR-failure scenario; its feature branch
is `agent/aaaabbbb-fix-bug`. -/
def taskB : AgentTask :=
  mkPendingTask "aaaabbbb-cccc" "Fix Bug" "please fix"
    "/home/zzula/projects/idea-factory-manager" none

/-- Runner environment in which everything succeeds up to and including
the push, but `gh pr create` exits 1, and no preview appears. -/
def runnerEnvPrFail : RunnerEnv :=
  { agentProc := ProcOutcome.closed 0 "agent output" ""
    git := { gitEnvOk with prProc := ProcOutcome.closed 1 "" "gh: Not authenticated" }
    dokployApiKey := "key"
    previewPolls := [none] }

/-- Fresh pending task for the preview-without-PR scenario; its feature
branch is `agent/deadbeef-tweak`. -/
def taskC : AgentTask :=
  mkPendingTask "deadbeef-0000" "Tweak" "tweak it"
    "/home/zzula/projects/idea-factory-manager" none

/-- Runner environment in which the push succeeds, PR creation fails,
and a preview for the pushed branch is nevertheless found. -/
def runnerEnvC3 : RunnerEnv :=
  { agentProc := ProcOutcome.closed 0 "agent output" ""
    git := { gitEnvOk with prProc := ProcOutcome.closed 1 "" "boom" }
    dokployApiKey := "key"
    previewPolls :=
      [some [{ branch := "agent/deadbeef-tweak"
               previewDeploymentId := "pd7"
               domain := some "https://pv7.example.com" }]] }

set_option maxRecDepth 16384 in
/-- Claim C2 (code bug): when the branch is pushed but PR creation
fails, `commitAndPush` reports the failure reason in its `error` field,
yet the `review` update written by `processTask` does not include the
`error` key, so the stored task reaches `review` with `error` still
null and the PR-creation failure reason is never persisted. -/
theorem claim2_pr_error_not_persisted :
    (commitAndPush taskB runnerEnvPrFail.git).result.error =
      some "Branch pushed but PR creation failed: gh: Not authenticated" ∧
    (finalState taskB (processTask taskB runnerEnvPrFail)).status = TaskStatus.review ∧
    (finalState taskB (processTask taskB runnerEnvPrFail)).error = none := by
  decide

set_option maxRecDepth 16384 in
/-- Claim C3 counterexample: with a pushed branch, a failed PR creation
and a matching preview entry, the stored task has `previewUrl` and
`previewDeploymentId` set while `prUrl` is null, refuting the claim that
preview fields are only ever set when `prUrl` is set. -/
theorem claim3_counterexample :
    (finalState taskC (processTask taskC runnerEnvC3)).previewUrl
      = some "https://pv7.example.com" ∧
    (finalState taskC (processTask taskC runnerEnvC3)).previewDeploymentId = some "pd7" ∧
    (finalState taskC (processTask taskC runnerEnvC3)).prUrl = none := by
  decide

/-- Claim C1: when the agent invocation succeeds, the commit-and-push
step reports success, and a truthy commit hash exists, `processTask`
writes exactly two updates — the initial `running` one and a final one
whose status is `review` — whatever the PR and preview outcomes were. -/
theorem claim1_running_to_review (task : AgentTask) (env : RunnerEnv)
    (hA : (runAgent env.agentProc).success = true)
    (hG : (commitAndPush task env.git).result.success = true)
    (hH : optTruthy (commitAndPush task env.git).result.commitHash = true) :
    ∃ u : TaskUpdate,
      updatesOf (processTask task env) = [{ status := TaskStatus.running }, u] ∧
      u.status = TaskStatus.review := by
  simp [processTask, hA, hG, hH]

set_option maxRecDepth 16384 in
/-- Witness for claim C1 at the fully successful concrete scenario. -/
theorem claim1_witness :
    ∃ u : TaskUpdate,
      updatesOf (processTask taskA runnerEnvOk) = [{ status := TaskStatus.running }, u] ∧
      u.status = TaskStatus.review :=
  claim1_running_to_review taskA runnerEnvOk (by decide) (by decide) (by decide)

/-- Claim C5: when the agent process exits non-zero or fails to launch,
`processTask` performs exactly the `running` update and a `failed`
update — so no git command, no PR creation and no preview fetch occurs —
with `output` the captured stdout and `error` the captured stderr,
falling back to an exit-code string when stderr is empty, or the launch
error message. -/
theorem claim5_agent_failure (task : AgentTask) (env : RunnerEnv)
    (h : (runAgent env.agentProc).success = false) :
    processTask task env =
      [Event.dbUpdate task.id { status := TaskStatus.running },
       Event.dbUpdate task.id
         { status := TaskStatus.failed
           output := some (runAgent env.agentProc).output
           error := (runAgent env.agentProc).error }] ∧
    (match env.agentProc with
     | ProcOutcome.closed code out err =>
         (runAgent env.agentProc).output = out ∧
         (runAgent env.agentProc).error =
           some (if err.isEmpty then "Exit code: " ++ toString code else err)
     | ProcOutcome.launchError msg out =>
         (runAgent env.agentProc).output = out ∧
         (runAgent env.agentProc).error = some msg) := by
  constructor
  · simp [processTask, h]
  · cases hp : env.agentProc with
    | closed code out err =>
      by_cases hc : code == 0
      · rw [hp] at h
        simp [runAgent, hc] at h
      · simp [runAgent, hc]
    | launchError msg out => simp [runAgent]

/-- Witness for claim C5: the agent exits 1 with stderr captured. -/
theorem claim5_witness :
    processTask taskA
        { runnerEnvOk with agentProc := ProcOutcome.closed 1 "captured out" "model error" } =
      [Event.dbUpdate "11112222-3333" { status := TaskStatus.running },
       Event.dbUpdate "11112222-3333"
         { status := TaskStatus.failed
           output := some "captured out"
           error := some "model error" }] :=
  (claim5_agent_failure taskA
    { runnerEnvOk with agentProc := ProcOutcome.closed 1 "captured out" "model error" }
    (by decide)).1

/-- Claim C6: when the agent succeeds and the porcelain status output is
empty (after trimming), the only git command run is the status check —
no branch creation, commit or push — and the fresh task ends `completed`
with `output` the captured agent output and `branchName`/`commitHash`
still null. -/
theorem claim6_noop_completed (id title prompt path : String) (model : Option String)
    (env : RunnerEnv)
    (hA : (runAgent env.agentProc).success = true)
    (hS : (jsTrim env.git.statusRes.output).isEmpty = true) :
    processTask (mkPendingTask id title prompt path model) env =
      [Event.dbUpdate id { status := TaskStatus.running },
       Event.gitCmd ["status", "--porcelain"],
       Event.dbUpdate id
         { status := TaskStatus.completed, output := some (runAgent env.agentProc).output }] ∧
    (finalOf id title prompt path model env).status = TaskStatus.completed ∧
    (finalOf id title prompt path model env).output = some (runAgent env.agentProc).output ∧
    (finalOf id title prompt path model env).branchName = none ∧
    (finalOf id title prompt path model env).commitHash = none := by
  have hmain : processTask (mkPendingTask id title prompt path model) env =
      [Event.dbUpdate id { status := TaskStatus.running },
       Event.gitCmd ["status", "--porcelain"],
       Event.dbUpdate id
         { status := TaskStatus.completed, output := some (runAgent env.agentProc).output }] := by
    simp [processTask, commitAndPush, hA, hS, optTruthy, mkPendingTask]
  refine ⟨hmain, ?_⟩
  unfold finalOf finalState
  rw [hmain]
  simp [applyUpdate, mergeField, mkPendingTask, updatesOf]

/-- Witness for claim C6: successful agent run over a clean tree. -/
theorem claim6_witness :
    (finalOf "11112222-3333" "Add Feature" "do the thing"
        "/home/zzula/projects/idea-factory-manager" none
        { runnerEnvOk with git := { gitEnvOk with statusRes := okCmd } }).status
      = TaskStatus.completed ∧
    (finalOf "11112222-3333" "Add Feature" "do the thing"
        "/home/zzula/projects/idea-factory-manager" none
        { runnerEnvOk with git := { gitEnvOk with statusRes := okCmd } }).branchName
      = none :=
  And.intro
    ((claim6_noop_completed "11112222-3333" "Add Feature" "do the thing"
        "/home/zzula/projects/idea-factory-manager" none
        { runnerEnvOk with git := { gitEnvOk with statusRes := okCmd } }
        (by decide) (by decide)).2.1)
    ((claim6_noop_completed "11112222-3333" "Add Feature" "do the thing"
        "/home/zzula/projects/idea-factory-manager" none
        { runnerEnvOk with git := { gitEnvOk with statusRes := okCmd } }
        (by decide) (by decide)).2.2.2.1)

set_option maxHeartbeats 1600000 in
/-- Claim C7: whenever the working tree has changes, the branch-creation
checkout uses exactly the name `agent/` followed by the first 8
characters of the task id, a dash, and the slug of the title — the
title lower-cased, maximal runs of non-alphanumeric characters collapsed
to a single dash, truncated to 30 characters (`slugSpec`). -/
theorem claim7_feature_branch_name (task : AgentTask) (env : GitEnv)
    (h : (jsTrim env.statusRes.output).isEmpty = false) :
    ((commitAndPush task env).events)[2]? =
      some (Event.gitCmd ["checkout", "-b",
        "agent/" ++ task.id.take 8 ++ "-" ++ slugSpec task.title]) := by
  cases hpr : (createPullRequest env.prProc).success with
  | false =>
    unfold commitAndPush
    split_ifs <;> simp_all [featureBranchOf, slugify_eq_slugSpec]
  | true =>
    unfold commitAndPush
    split_ifs <;> simp_all [featureBranchOf, slugify_eq_slugSpec]

set_option maxRecDepth 16384 in
/-- Witness for claim C7: a title with uppercase letters and symbol runs
slugs to `add-api-support-`, giving branch
`agent/11112222-add-api-support-`. -/
theorem claim7_witness :
    ((commitAndPush
        (mkPendingTask "11112222-3333" "Add API-Support!!" "p"
          "/home/zzula/projects/idea-factory-manager" none)
        gitEnvOk).events)[2]? =
      some (Event.gitCmd ["checkout", "-b",
        "agent/" ++ ("11112222-3333" : String).take 8 ++ "-"
          ++ slugSpec "Add API-Support!!"]) :=
  claim7_feature_branch_name
    (mkPendingTask "11112222-3333" "Add API-Support!!" "p"
      "/home/zzula/projects/idea-factory-manager" none)
    gitEnvOk (by decide)

set_option maxHeartbeats 1600000 in
/-- Claim C8: when the tree has changes and `commitAndPush` fails, the
rollback checkout to the base branch is performed before the failure is
returned (when the feature checkout had succeeded, the rollback command
is in the trace; when the rollback command succeeds, the tree ends on
the base branch), and the failure result carries the partial branch and
commit info — in particular, when checkout, stage and commit all
succeeded (a push failure), both the feature branch name and the short
commit hash are reported. -/
theorem claim8_failure_rollback (task : AgentTask) (env : GitEnv)
    (hChanges : (jsTrim env.statusRes.output).isEmpty = false)
    (hFail : (commitAndPush task env).result.success = false) :
    (env.checkoutBackRes.success = true →
      (commitAndPush task env).finalBranch = jsTrim env.headBranchRes.output) ∧
    (env.checkoutFeatureRes.success = true →
      Event.gitCmd ["checkout", jsTrim env.headBranchRes.output]
        ∈ (commitAndPush task env).events) ∧
    (env.checkoutFeatureRes.success = true → env.addRes.success = true →
     env.commitRes.success = true →
      (commitAndPush task env).result.branchName = some (featureBranchOf task) ∧
      (commitAndPush task env).result.commitHash
        = some ((jsTrim env.headHashRes.output).take 7)) := by
  revert hFail
  cases hpr : (createPullRequest env.prProc).success with
  | false =>
    unfold commitAndPush
    split_ifs <;> simp_all
  | true =>
    unfold commitAndPush
    split_ifs <;> simp_all

set_option maxRecDepth 16384 in
/-- Witness for claim C8: every git step succeeds except the push. -/
theorem claim8_witness :
    ((commitAndPush taskA
        { gitEnvOk with pushRes := { success := false, output := "remote rejected" } }).result.branchName
      = some (featureBranchOf taskA)) ∧
    ((commitAndPush taskA
        { gitEnvOk with pushRes := { success := false, output := "remote rejected" } }).finalBranch
      = jsTrim ({ gitEnvOk with
          pushRes := { success := false, output := "remote rejected" } } : GitEnv).headBranchRes.output) :=
  And.intro
    (((claim8_failure_rollback taskA
        { gitEnvOk with pushRes := { success := false, output := "remote rejected" } }
        (by decide) (by decide)).2.2 (by decide) (by decide) (by decide)).1)
    ((claim8_failure_rollback taskA
        { gitEnvOk with pushRes := { success := false, output := "remote rejected" } }
        (by decide) (by decide)).1 (by decide))

/-- Claim C9: when the merge step of the approve path fails (the guard
or any checkout/pull/merge/push step), `processApprovedTask` stops
there: its whole effect trace contains no production-deploy trigger, no
preview deletion, and no database update — in particular the stored
status is left unchanged. -/
theorem claim9_merge_failure_aborts (task : AgentTask) (env : ResolverEnv)
    (h : (mergeToMain task env.merge).result.success = false) :
    ((processApprovedTask task env).all fun e => !isResolverSideEffect e) = true := by
  simp [processApprovedTask, h, mergeToMain_git_only]

/-- Task sitting in the post-approval state with branch, commit and
preview recorded. -/
def taskR : AgentTask :=
  { taskA with
    status := TaskStatus.completed
    branchName := some "agent/11112222-add-feature"
    commitHash := some "abc1234"
    previewDeploymentId := some "pd1" }

/-- Resolver environment whose merge fails at the checkout step. -/
def resolverEnvFail : ResolverEnv :=
  { merge :=
      { checkoutMainRes := { success := false, output := "checkout failed" }
        pullRes := okCmd
        mergeRes := okCmd
        pushMainRes := okCmd
        deleteLocalRes := okCmd
        deleteRemoteRes := okCmd }
    dokployApiKey := "key"
    deployOk := true
    deployFailText := ""
    cleanupOk := true
    cleanupFailText := "" }

/-- Witness for claim C9 at a concrete failing merge. -/
theorem claim9_witness :
    ((processApprovedTask taskR resolverEnvFail).all
      fun e => !isResolverSideEffect e) = true :=
  claim9_merge_failure_aborts taskR resolverEnvFail (by decide)

/-- Bool helper: a failed conjunction with a true left side has a false
right side. -/
theorem and_right_false {a b : Bool} (hQ : ¬(a && b) = true) (ha : a = true) :
    b = false := by
  cases b with
  | false => rfl
  | true => exact absurd (by simp [ha]) hQ

/-- Claim C3 amended: the stored `previewUrl`/`previewDeploymentId` of a
fresh task are only ever set when `branchName` and `commitHash` are set
(preview discovery runs after a successful push, regardless of whether
PR creation succeeded). -/
theorem claim3_amended (id title prompt path : String) (model : Option String)
    (env : RunnerEnv)
    (h : (finalOf id title prompt path model env).previewUrl ≠ none ∨
         (finalOf id title prompt path model env).previewDeploymentId ≠ none) :
    (finalOf id title prompt path model env).branchName ≠ none ∧
    (finalOf id title prompt path model env).commitHash ≠ none := by
  by_cases hA : (runAgent env.agentProc).success = true
  · by_cases hQ :
      ((commitAndPush (mkPendingTask id title prompt path model) env.git).result.success
        && optTruthy
          (commitAndPush (mkPendingTask id title prompt path model) env.git).result.commitHash)
        = true
    · have hS :
          (commitAndPush (mkPendingTask id title prompt path model) env.git).result.success
            = true := (Bool.and_eq_true _ _ |>.mp hQ).1
      have hH :
          optTruthy
            (commitAndPush (mkPendingTask id title prompt path model) env.git).result.commitHash
            = true := (Bool.and_eq_true _ _ |>.mp hQ).2
      have hB := commitAndPush_branchName_some
        (mkPendingTask id title prompt path model) env.git hS hH
      cases hc :
        (commitAndPush (mkPendingTask id title prompt path model) env.git).result.commitHash with
      | none => rw [hc] at hH; simp [optTruthy] at hH
      | some s =>
        have hHs : optTruthy (some s) = true := by rw [← hc]; exact hH
        constructor
        · unfold finalOf finalState
          simp [processTask, hA, hQ, applyUpdate, mergeField, hB]
        · unfold finalOf finalState
          simp [processTask, hA, hS, hHs, hc, applyUpdate, mergeField]
    · by_cases hS2 :
        (commitAndPush (mkPendingTask id title prompt path model) env.git).result.success = true
      · have hT := and_right_false hQ hS2
        unfold finalOf finalState at h
        simp [processTask, hA, hS2, hT, applyUpdate, mergeField] at h
      · unfold finalOf finalState at h
        simp [processTask, hA, hS2, applyUpdate, mergeField] at h
  · unfold finalOf finalState at h
    simp [processTask, hA, applyUpdate, mergeField] at h

set_option maxRecDepth 16384 in
/-- Witness for claim C3 amended: in the preview-without-PR scenario the
preview fields are set, and indeed so are the branch and commit. -/
theorem claim3_amended_witness :
    (finalOf "deadbeef-0000" "Tweak" "tweak it"
        "/home/zzula/projects/idea-factory-manager" none runnerEnvC3).branchName ≠ none ∧
    (finalOf "deadbeef-0000" "Tweak" "tweak it"
        "/home/zzula/projects/idea-factory-manager" none runnerEnvC3).commitHash ≠ none :=
  claim3_amended "deadbeef-0000" "Tweak" "tweak it"
    "/home/zzula/projects/idea-factory-manager" none runnerEnvC3
    (Or.inl (by decide))

/-- Claim C4 amended: once `processTask` has finished, the fresh task
sits in `review`, `completed` or `failed`, and at least one of `output`
and `error` is non-null (in fact every final update carries `output`);
in the intermediate `running` state both may still be null. -/
theorem claim4_amended (id title prompt path : String) (model : Option String)
    (env : RunnerEnv) :
    ((finalOf id title prompt path model env).status = TaskStatus.review ∨
     (finalOf id title prompt path model env).status = TaskStatus.completed ∨
     (finalOf id title prompt path model env).status = TaskStatus.failed) ∧
    ((finalOf id title prompt path model env).output ≠ none ∨
     (finalOf id title prompt path model env).error ≠ none) := by
  by_cases hA : (runAgent env.agentProc).success = true
  · by_cases hQ :
      ((commitAndPush (mkPendingTask id title prompt path model) env.git).result.success
        && optTruthy
          (commitAndPush (mkPendingTask id title prompt path model) env.git).result.commitHash)
        = true
    · unfold finalOf finalState
      simp [processTask, hA, hQ, applyUpdate, mergeField]
    · by_cases hS2 :
        (commitAndPush (mkPendingTask id title prompt path model) env.git).result.success = true
      · have hT := and_right_false hQ hS2
        unfold finalOf finalState
        simp [processTask, hA, hS2, hT, applyUpdate, mergeField]
      · unfold finalOf finalState
        simp [processTask, hA, hS2, applyUpdate, mergeField]
  · unfold finalOf finalState
    simp [processTask, hA, applyUpdate, mergeField]

/-- Fresh pending task for the empty-domain preview scenario; its
feature branch is `agent/feedc0de-polish`. -/
def taskD : AgentTask :=
  mkPendingTask "feedc0de-1111" "Polish" "p"
    "/home/zzula/projects/idea-factory-manager" none

/-- Runner environment whose preview entry matches the pushed branch but
carries an empty-string domain. -/
def runnerEnvC10 : RunnerEnv :=
  { agentProc := ProcOutcome.closed 0 "o" ""
    git := gitEnvOk
    dokployApiKey := "key"
    previewPolls :=
      [some [{ branch := "agent/feedc0de-polish"
               previewDeploymentId := "pd9"
               domain := some "" }]] }

set_option maxRecDepth 16384 in
/-- Claim C10 counterexample: the matched preview entry has a present
(empty-string) domain, yet the stored `previewUrl` is the placeholder
text, not that domain — the JavaScript or-operator also rejects an
empty string. -/
theorem claim10_counterexample :
    pollFind "agent/feedc0de-polish" runnerEnvC10.previewPolls =
      some { branch := "agent/feedc0de-polish"
             previewDeploymentId := "pd9"
             domain := some "" } ∧
    (finalState taskD (processTask taskD runnerEnvC10)).previewUrl
      = some "Preview for agent/feedc0de-polish" ∧
    (finalState taskD (processTask taskD runnerEnvC10)).previewUrl ≠ some "" := by
  decide

/-- Claim C10 amended: when the pipeline reaches `review` and the
polling finds an entry for the pushed branch, the stored `previewUrl`
equals the entry domain when it is present and nonempty, and otherwise
the placeholder text `Preview for <branchName>`. -/
theorem claim10_amended (id title prompt path : String) (model : Option String)
    (env : RunnerEnv) (b : String) (e : PreviewEntry)
    (hA : (runAgent env.agentProc).success = true)
    (hG : (commitAndPush (mkPendingTask id title prompt path model) env.git).result.success
      = true)
    (hH : optTruthy
      (commitAndPush (mkPendingTask id title prompt path model) env.git).result.commitHash
      = true)
    (hB : (commitAndPush (mkPendingTask id title prompt path model) env.git).result.branchName
      = some b)
    (hM : (PROJECT_APP_IDS path).isSome = true)
    (hK : env.dokployApiKey.isEmpty = false)
    (hF : pollFind b env.previewPolls = some e) :
    (finalOf id title prompt path model env).previewUrl =
      some (match e.domain with
            | some d => if d.isEmpty then "Preview for " ++ b else d
            | none => "Preview for " ++ b) := by
  obtain ⟨a, ha⟩ := Option.isSome_iff_exists.mp hM
  unfold finalOf finalState
  simp only [processTask, hA, hG, hH, Bool.and_self, if_true, hB, Option.getD_some]
  rw [show (mkPendingTask id title prompt path model).projectPath = path from rfl]
  simp [waitForPreviewDeployment, ha, hK, pollLoop_result, hF, applyUpdate, mergeField,
    previewUrlOf]

set_option maxRecDepth 16384 in
/-- Witness for claim C10 amended: a found entry with a nonempty domain
yields that domain as the stored preview URL. -/
theorem claim10_witness :
    (finalOf "deadbeef-0000" "Tweak" "tweak it"
        "/home/zzula/projects/idea-factory-manager" none runnerEnvC3).previewUrl =
      some (match ({ branch := "agent/deadbeef-tweak"
                     previewDeploymentId := "pd7"
                     domain := some "https://pv7.example.com" } : PreviewEntry).domain with
            | some d => if d.isEmpty then "Preview for " ++ "agent/deadbeef-tweak" else d
            | none => "Preview for " ++ "agent/deadbeef-tweak") :=
  claim10_amended "deadbeef-0000" "Tweak" "tweak it"
    "/home/zzula/projects/idea-factory-manager" none runnerEnvC3
    "agent/deadbeef-tweak"
    { branch := "agent/deadbeef-tweak"
      previewDeploymentId := "pd7"
      domain := some "https://pv7.example.com" }
    (by decide) (by decide) (by decide) (by decide) (by decide) (by decide) (by decide)

set_option maxRecDepth 16384 in
/-- Claim C4 counterexample: the `running` update carries no fields, so
the stored state right after leaving `pending` has status `running` with
both `output` and `error` still null, refuting the claim for the
`running` state. -/
theorem claim4_counterexample :
    ¬ (∀ s ∈ statesAfter taskA (updatesOf (processTask taskA runnerEnvOk)),
        s.status ≠ TaskStatus.pending → (s.output ≠ none ∨ s.error ≠ none)) := by
  decide

end IFM
